import Mathlib

/-!
Shallow embedding of the geometric path-planning core of the repository
(`src/software/pointutil.py`): the inverse-kinematics solver
`inverseKinematics`, the waypoint interpolator `interpolatePoints`, and the
path assembler `convertWaypoints`.

Modelling conventions:
* Python floats are modelled as real numbers (`ℝ`); 2-D points as `ℝ × ℝ`.
* Python exceptions are modelled as explicit `Except` results with a
  `PyError` value naming the exception class the interpreter raises:
  `ZeroDivisionError` from `x / y` with `y = 0`, `ValueError` ("math domain
  error") from `math.acos` outside `[-1, 1]`, and the `ValueError` /
  `OverflowError` raised when `np.linspace` converts a negative, NaN or
  infinite sample count to an integer.
* `np.linspace(P1, P2, num)` truncates a fractional `num` toward zero
  (the historical numpy behaviour this code relies on) and, for `num ≥ 2`,
  produces `P1 + i·(P2-P1)/(num-1)`; for `num = 1` it produces `[P1]` and
  for `num = 0` the empty array.  With Lean's `x / 0 = 0` convention the
  uniform formula below yields exactly those special cases as well.
-/

open Real

/-- The exception classes the Python code can raise. -/
inductive PyError where
  | zeroDivisionError
  | mathDomainError
  | valueError
  | overflowError
  deriving DecidableEq, Repr

/-- `np.rad2deg`: radians to degrees. -/
noncomputable def rad2deg (t : ℝ) : ℝ := t * (180 / π)

/-- Euclidean distance between two points, `np.linalg.norm(P2 - P1)`. -/
noncomputable def dist2 (P1 P2 : ℝ × ℝ) : ℝ :=
  Real.sqrt ((P2.1 - P1.1) ^ 2 + (P2.2 - P1.2) ^ 2)

/-- Python `int(...)` conversion of a real: truncation toward zero. -/
noncomputable def truncInt (t : ℝ) : ℤ := if 0 ≤ t then ⌊t⌋ else ⌈t⌉

/-- `inverseKinematics(x, y)` from `src/software/pointutil.py`:

    D = math.sqrt(x ** 2 + y ** 2)
    if x > 0:
        angle1 = math.pi + math.atan(x / y) + math.acos(D / 400)
        angle2 = math.pi + math.atan(x / y) - math.acos(D / 400)
    else:
        angle1 = math.pi - math.atan(x / y) + math.acos(D / 400)
        angle2 = math.pi - math.atan(x / y) - math.acos(D / 400)
    return np.rad2deg(angle1), np.rad2deg(angle2)

`x / y` raises `ZeroDivisionError` when `y = 0` (checked first, matching
Python's left-to-right evaluation), and `math.acos(D / 400)` raises a math
domain error (`ValueError`) when `D / 400 > 1`, i.e. when `D > 400`. -/
noncomputable def inverseKinematics (x y : ℝ) : Except PyError (ℝ × ℝ) :=
  let D := Real.sqrt (x ^ 2 + y ^ 2)
  if y = 0 then .error .zeroDivisionError
  else if 400 < D then .error .mathDomainError
  else if 0 < x then
    .ok (rad2deg (π + arctan (x / y) + arccos (D / 400)),
         rad2deg (π + arctan (x / y) - arccos (D / 400)))
  else
    .ok (rad2deg (π - arctan (x / y) + arccos (D / 400)),
         rad2deg (π - arctan (x / y) - arccos (D / 400)))

/-- `np.linspace(P1, P2, num)` on 2-D points, `num` already truncated to a
natural number.  For `num ≥ 2` the samples are `P1 + i·(P2-P1)/(num-1)`
with the endpoint included exactly; for `num = 1` the single sample is
`P1` (the `i = 0` term, since `i * _ = 0`); for `num = 0` it is empty. -/
noncomputable def linspace (P1 P2 : ℝ × ℝ) (num : ℕ) : List (ℝ × ℝ) :=
  (List.range num).map fun i : ℕ =>
    (P1.1 + (i : ℝ) * (P2.1 - P1.1) / ((num : ℝ) - 1),
     P1.2 + (i : ℝ) * (P2.2 - P1.2) / ((num : ℝ) - 1))

/-- `interpolatePoints(P1, P2, res=0.5)` from `src/software/pointutil.py`:

    diff = P2 - P1
    dist = np.linalg.norm(diff)
    numpoints = dist / res
    points = np.linspace(P1, P2, numpoints + 1)
    return points

With `res = 0`, `dist / res` is `inf` (or `nan` when `dist = 0`) and
`np.linspace`'s integer conversion of `numpoints + 1` raises
`OverflowError` (resp. `ValueError`).  Otherwise the fractional sample
count `numpoints + 1` is truncated toward zero; a negative truncated count
(possible when `res < 0`) makes `np.linspace` raise `ValueError`. -/
noncomputable def interpolatePoints (P1 P2 : ℝ × ℝ) (res : ℝ) :
    Except PyError (List (ℝ × ℝ)) :=
  let dist := dist2 P1 P2
  if res = 0 then .error (if dist = 0 then .valueError else .overflowError)
  else
    let numpoints := dist / res
    let num : ℤ := truncInt (numpoints + 1)
    if num < 0 then .error .valueError
    else .ok (linspace P1 P2 num.toNat)

/-- The loop body of `convertWaypoints`: solve every interpolated point in
order, stopping at the first exception. -/
noncomputable def solveWaypoints : List (ℝ × ℝ) → Except PyError (List (ℝ × ℝ))
  | [] => .ok []
  | point :: rest => do
    let solvedpoint ← inverseKinematics point.1 point.2
    let waypoints ← solveWaypoints rest
    pure (solvedpoint :: waypoints)

/-- `convertWaypoints(p1, p2)` from `src/software/pointutil.py`:

    interpPoints = interpolatePoints(p1, p2)
    waypoints = []
    for point in interpPoints:
        solvedpoint = inverseKinematics(*point)
        waypoints.append(solvedpoint)
    return waypoints

The interpolation resolution is the default `res = 0.5`. -/
noncomputable def convertWaypoints (p1 p2 : ℝ × ℝ) :
    Except PyError (List (ℝ × ℝ)) := do
  let interpPoints ← interpolatePoints p1 p2 0.5
  solveWaypoints interpPoints

/-! ### Helper lemmas: concrete evaluations -/

lemma arccos_one_half : arccos (1 / 2) = π / 3 := by
  rw [← Real.cos_pi_div_three]
  exact Real.arccos_cos (by positivity) (by linarith [Real.pi_pos])

lemma sqrt_forty_thousand : Real.sqrt ((0 : ℝ) ^ 2 + 200 ^ 2) = 200 := by
  rw [show ((0 : ℝ) ^ 2 + 200 ^ 2) = 200 ^ 2 by norm_num]
  exact Real.sqrt_sq (by norm_num)

lemma ik_0_200 : inverseKinematics 0 200 = .ok (240, 120) := by
  unfold inverseKinematics
  rw [sqrt_forty_thousand]
  norm_num [rad2deg, Real.arctan_zero, arccos_one_half]
  constructor <;> · field_simp; ring

lemma ik_y_zero (x : ℝ) : inverseKinematics x 0 = .error .zeroDivisionError := by
  simp [inverseKinematics]

lemma ik_domain_error {x y : ℝ} (hy : y ≠ 0)
    (hD : 400 < Real.sqrt (x ^ 2 + y ^ 2)) :
    inverseKinematics x y = .error .mathDomainError := by
  simp [inverseKinematics, hy, hD]

lemma dist2_ten : dist2 (0, 0) (10, 0) = 10 := by
  simp only [dist2]
  rw [show ((10 : ℝ) - 0) ^ 2 + ((0 : ℝ) - 0) ^ 2 = 10 ^ 2 by norm_num]
  exact Real.sqrt_sq (by norm_num)

lemma dist2_one : dist2 (0, 0) (1, 0) = 1 := by
  simp only [dist2]
  rw [show ((1 : ℝ) - 0) ^ 2 + ((0 : ℝ) - 0) ^ 2 = 1 by norm_num]
  exact Real.sqrt_one


lemma interp_short : interpolatePoints (0, 0) (1, 0) 2 = .ok [(0, 0)] := by
  unfold interpolatePoints
  rw [dist2_one]
  norm_num [truncInt]
  simp [linspace, List.range_succ]

lemma interp_coarse : interpolatePoints (0, 0) (10, 0) 3 =
    .ok [(0, 0), (10 / 3, 0), (20 / 3, 0), (10, 0)] := by
  unfold interpolatePoints
  rw [dist2_ten]
  norm_num [truncInt]
  simp [linspace, List.range_succ, Prod.ext_iff]
  norm_num

lemma interp_negative_res : interpolatePoints (0, 0) (10, 0) (-100) = .ok [] := by
  unfold interpolatePoints
  rw [dist2_ten]
  norm_num [truncInt]
  simp [linspace]

lemma dist2_self (p : ℝ × ℝ) : dist2 p p = 0 := by
  simp [dist2]

lemma dist2_nonneg (p q : ℝ × ℝ) : 0 ≤ dist2 p q := Real.sqrt_nonneg _

lemma truncInt_of_nonneg {t : ℝ} (h : 0 ≤ t) : truncInt t = ⌊t⌋ := if_pos h

lemma linspace_length (P1 P2 : ℝ × ℝ) (num : ℕ) :
    (linspace P1 P2 num).length = num := by
  simp only [linspace, List.length_map, List.length_range]

lemma linspace_getElem? (P1 P2 : ℝ × ℝ) (num i : ℕ) (h : i < num) :
    (linspace P1 P2 num)[i]? = some
      (P1.1 + i * (P2.1 - P1.1) / ((num : ℝ) - 1),
       P1.2 + i * (P2.2 - P1.2) / ((num : ℝ) - 1)) := by
  unfold linspace
  rw [List.getElem?_map, List.getElem?_range h]
  rfl

lemma interpolatePoints_eq_linspace (P1 P2 : ℝ × ℝ) (r : ℝ) (hr : 0 < r) :
    interpolatePoints P1 P2 r =
      .ok (linspace P1 P2 (⌊dist2 P1 P2 / r⌋.toNat + 1)) := by
  have hd : (0 : ℝ) ≤ dist2 P1 P2 / r := div_nonneg (dist2_nonneg _ _) hr.le
  have hfl : (0 : ℤ) ≤ ⌊dist2 P1 P2 / r⌋ := Int.floor_nonneg.mpr hd
  have htr : truncInt (dist2 P1 P2 / r + 1) = ⌊dist2 P1 P2 / r⌋ + 1 := by
    rw [truncInt_of_nonneg (by linarith)]
    exact_mod_cast Int.floor_add_int (dist2 P1 P2 / r) 1
  unfold interpolatePoints
  rw [if_neg hr.ne']
  simp only [htr]
  rw [if_neg (by omega)]
  congr 1
  congr 1
  omega

lemma linspace_head (P1 P2 : ℝ × ℝ) (k : ℕ) :
    (linspace P1 P2 (k + 1)).head? = some P1 := by
  rw [List.head?_eq_getElem? _, linspace_getElem? P1 P2 (k + 1) 0 (by omega)]
  simp

lemma linspace_last (P1 P2 : ℝ × ℝ) (k : ℕ) (hk : 1 ≤ k) :
    (linspace P1 P2 (k + 1)).getLast? = some P2 := by
  rw [List.getLast?_eq_getElem? _, linspace_length]
  rw [show k + 1 - 1 = k from rfl, linspace_getElem? P1 P2 (k + 1) k (by omega)]
  have hk' : ((k : ℝ)) ≠ 0 := Nat.cast_ne_zero.mpr (by omega)
  have h1 : ((k + 1 : ℕ) : ℝ) - 1 = (k : ℝ) := by push_cast; ring
  rw [h1, mul_div_cancel_left₀ _ hk', mul_div_cancel_left₀ _ hk']
  congr 1
  refine Prod.ext ?_ ?_ <;> simp

lemma sqrt_spacing (dx dy c : ℝ) (hc : 0 ≤ c) :
    Real.sqrt ((dx / c) ^ 2 + (dy / c) ^ 2) = Real.sqrt (dx ^ 2 + dy ^ 2) / c := by
  rw [div_pow, div_pow, div_add_div_same, Real.sqrt_div (by positivity),
    Real.sqrt_sq hc]

lemma linspace_spacing (P1 P2 : ℝ × ℝ) (k i : ℕ) :
    dist2 (P1.1 + (i : ℝ) * (P2.1 - P1.1) / (((k + 1 : ℕ) : ℝ) - 1),
           P1.2 + (i : ℝ) * (P2.2 - P1.2) / (((k + 1 : ℕ) : ℝ) - 1))
          (P1.1 + ((i + 1 : ℕ) : ℝ) * (P2.1 - P1.1) / (((k + 1 : ℕ) : ℝ) - 1),
           P1.2 + ((i + 1 : ℕ) : ℝ) * (P2.2 - P1.2) / (((k + 1 : ℕ) : ℝ) - 1)) =
      dist2 P1 P2 / (k : ℝ) := by
  unfold dist2
  dsimp only
  have h1 : ((k + 1 : ℕ) : ℝ) - 1 = (k : ℝ) := by push_cast; ring
  rw [h1]
  rw [show P1.1 + ((i + 1 : ℕ) : ℝ) * (P2.1 - P1.1) / (k : ℝ) -
        (P1.1 + (i : ℝ) * (P2.1 - P1.1) / (k : ℝ)) = (P2.1 - P1.1) / (k : ℝ) by
      push_cast; ring,
    show P1.2 + ((i + 1 : ℕ) : ℝ) * (P2.2 - P1.2) / (k : ℝ) -
        (P1.2 + (i : ℝ) * (P2.2 - P1.2) / (k : ℝ)) = (P2.2 - P1.2) / (k : ℝ) by
      push_cast; ring]
  exact sqrt_spacing _ _ _ (Nat.cast_nonneg k)

lemma solveWaypoints_spec (ps : List (ℝ × ℝ)) :
    ∀ ws, solveWaypoints ps = .ok ws →
      ws.length = ps.length ∧
      ∀ i : ℕ, ∀ p, ps[i]? = some p →
        ∃ w, ws[i]? = some w ∧ inverseKinematics p.1 p.2 = .ok w := by
  induction ps with
  | nil =>
    intro ws h
    simp only [solveWaypoints] at h
    cases h
    simp
  | cons q rest ih =>
    intro ws h
    unfold solveWaypoints at h
    cases hik : inverseKinematics q.1 q.2 with
    | error e => rw [hik] at h; simp [Bind.bind, Except.bind] at h
    | ok s =>
      rw [hik] at h
      cases hrest : solveWaypoints rest with
      | error e =>
        rw [hrest] at h
        simp [Bind.bind, Except.bind, Functor.map, Except.map] at h
      | ok t =>
        rw [hrest] at h
        simp only [Bind.bind, Except.bind, Functor.map, Except.map, pure,
          Except.pure, Except.ok.injEq] at h
        subst h
        obtain ⟨hlen, hall⟩ := ih t hrest
        refine ⟨by simp [hlen], ?_⟩
        intro i p hp
        cases i with
        | zero =>
          simp only [List.getElem?_cons_zero, Option.some.injEq] at hp ⊢
          exact ⟨s, rfl, hp ▸ hik⟩
        | succ j =>
          simp only [List.getElem?_cons_succ] at hp ⊢
          exact hall j p hp

lemma ik_mirror (x y : ℝ) (hy : y ≠ 0)
    (hle : Real.sqrt (x ^ 2 + y ^ 2) ≤ 400) :
    inverseKinematics (-x) y = inverseKinematics x y := by
  unfold inverseKinematics
  have hsq : (-x) ^ 2 + y ^ 2 = x ^ 2 + y ^ 2 := by ring
  simp only [hsq, if_neg hy, if_neg (not_lt.mpr hle)]
  rcases lt_trichotomy x 0 with hneg | rfl | hpos
  · rw [if_pos (by linarith), if_neg (not_lt.mpr hneg.le)]
    simp only [neg_div, Real.arctan_neg, rad2deg]
    ring_nf
  · simp
  · rw [if_neg (by simp; linarith), if_pos hpos]
    simp only [neg_div, Real.arctan_neg, rad2deg]
    ring_nf

lemma ik_diff (x y a1 a2 : ℝ) (h : inverseKinematics x y = .ok (a1, a2)) :
    a2 ≤ a1 ∧
      a1 - a2 = rad2deg (2 * arccos (Real.sqrt (x ^ 2 + y ^ 2) / 400)) := by
  have hc := Real.arccos_nonneg (Real.sqrt (x ^ 2 + y ^ 2) / 400)
  have hpi := Real.pi_pos
  have h180 : (0 : ℝ) ≤ 180 / π := by positivity
  unfold inverseKinematics at h
  by_cases hy : y = 0
  · rw [if_pos hy] at h; exact absurd h (by simp)
  · rw [if_neg hy] at h
    by_cases hD : 400 < Real.sqrt (x ^ 2 + y ^ 2)
    · rw [if_pos hD] at h; exact absurd h (by simp)
    · rw [if_neg hD] at h
      by_cases hx : 0 < x
      · rw [if_pos hx] at h
        simp only [Except.ok.injEq, Prod.mk.injEq] at h
        obtain ⟨h1, h2⟩ := h
        subst h1; subst h2
        unfold rad2deg
        constructor
        · apply mul_le_mul_of_nonneg_right (by linarith) h180
        · ring
      · rw [if_neg hx] at h
        simp only [Except.ok.injEq, Prod.mk.injEq] at h
        obtain ⟨h1, h2⟩ := h
        subst h1; subst h2
        unfold rad2deg
        constructor
        · apply mul_le_mul_of_nonneg_right (by linarith) h180
        · ring

lemma convertWaypoints_ok (p1 p2 : ℝ × ℝ) (ws : List (ℝ × ℝ))
    (h : convertWaypoints p1 p2 = .ok ws) :
    ∃ ps, interpolatePoints p1 p2 0.5 = .ok ps ∧ solveWaypoints ps = .ok ws := by
  unfold convertWaypoints at h
  cases hip : interpolatePoints p1 p2 0.5 with
  | error e => rw [hip] at h; simp [Bind.bind, Except.bind] at h
  | ok ps =>
    rw [hip] at h
    simp only [Bind.bind, Except.bind] at h
    exact ⟨ps, rfl, h⟩

lemma interp_self (p : ℝ × ℝ) (r : ℝ) (hr : 0 < r) :
    interpolatePoints p p r = .ok [p] := by
  rw [interpolatePoints_eq_linspace p p r hr, dist2_self]
  norm_num [linspace]

lemma cw_eval : convertWaypoints (0, 200) (0, 200) = .ok [(240, 120)] := by
  unfold convertWaypoints
  rw [interp_self (0, 200) 0.5 (by norm_num)]
  simp only [Bind.bind, Except.bind]
  unfold solveWaypoints
  rw [show ((0 : ℝ), (200 : ℝ)).1 = 0 from rfl, show ((0 : ℝ), (200 : ℝ)).2 = 200 from rfl,
    ik_0_200]
  rfl

lemma sqrt_0_500 : Real.sqrt ((0 : ℝ) ^ 2 + 500 ^ 2) = 500 := by
  rw [show ((0 : ℝ) ^ 2 + 500 ^ 2) = 500 ^ 2 by norm_num]
  exact Real.sqrt_sq (by norm_num)

lemma sqrt_200_200_le : Real.sqrt ((200 : ℝ) ^ 2 + 200 ^ 2) ≤ 400 := by
  rw [show ((200 : ℝ) ^ 2 + 200 ^ 2) = 80000 by norm_num]
  rw [show (400 : ℝ) = Real.sqrt (400 ^ 2) from (Real.sqrt_sq (by norm_num)).symm]
  apply Real.sqrt_le_sqrt
  norm_num

lemma sqrt_200_200_pos : 0 < Real.sqrt ((200 : ℝ) ^ 2 + 200 ^ 2) := by
  apply Real.sqrt_pos.mpr
  norm_num

lemma dist2_ten_thirds : dist2 (0, 0) (10 / 3, 0) = 10 / 3 := by
  simp only [dist2]
  rw [show ((10 / 3 : ℝ) - 0) ^ 2 + ((0 : ℝ) - 0) ^ 2 = (10 / 3) ^ 2 by norm_num]
  exact Real.sqrt_sq (by norm_num)

/-! ### Claims -/

/-- C1 (counterexample): `inverseKinematics(0, 200)` does not return the
spec's scenario-B solutions `(60°, −60°)`: the code offsets the base term
by `π` and uses `atan(x/y)`, so it returns `(240°, 120°)` instead. -/
theorem C1_counterexample :
    inverseKinematics 0 200 ≠ Except.ok ((60 : ℝ), (-60 : ℝ)) := by
  rw [ik_0_200]
  simp only [ne_eq, Except.ok.injEq, Prod.mk.injEq, not_and]
  norm_num

/-- C1 (amended): for the input `x = 0, y = 200`, `inverseKinematics`
returns the pair `(240°, 120°)`: the base term is
`π − atan(0/200) = 180°` and the elbow term `acos(200/400) = 60°`, so the
two solutions are `180° + 60°` and `180° − 60°`. -/
theorem C1_amended_thm : inverseKinematics 0 200 = .ok (240, 120) :=
  ik_0_200

/-- C2 (counterexample): at the axis-aligned boundary `y = 0` the solver
does not succeed: `inverseKinematics(200, 0)` (a reachable target,
`D = 200 ≤ 400`) raises `ZeroDivisionError` because the code computes the
single-argument ratio `atan(x / y)`, not a two-argument arctangent. -/
theorem C2_counterexample :
    inverseKinematics 200 0 = .error PyError.zeroDivisionError :=
  ik_y_zero 200

/-- C2 (amended): the solver computes the base direction from the
single-argument ratio `atan(x / y)`; consequently every input with
`y = 0` raises `ZeroDivisionError` instead of succeeding. -/
theorem C2_amended_thm :
    ∀ x : ℝ, inverseKinematics x 0 = .error PyError.zeroDivisionError :=
  ik_y_zero

/-- C3 (counterexample): `inverseKinematics(500, 0)` does not fail with a
value-returned `OutOfReachError`: it raises `ZeroDivisionError` (from
`atan(500 / 0)`, evaluated before the reach-limited `acos`), so the
failure is not an out-of-reach check at all. -/
theorem C3_counterexample :
    inverseKinematics 500 0 = .error PyError.zeroDivisionError :=
  ik_y_zero 500

/-- C3 (amended): for every out-of-reach target with `y ≠ 0` (reach is
hard-coded as `400`), the solver fails by raising a math domain error
(`ValueError`) from `acos(D / 400)` with `D / 400 > 1`; there is no
dedicated out-of-reach result value.  (With `y = 0` the earlier
`ZeroDivisionError` fires instead, as C3's counterexample shows.) -/
theorem C3_amended_thm (x y : ℝ) (hy : y ≠ 0)
    (hD : 400 < Real.sqrt (x ^ 2 + y ^ 2)) :
    inverseKinematics x y = .error PyError.mathDomainError :=
  ik_domain_error hy hD

/-- C3 (witness): the amended theorem applied at the concrete out-of-reach
target `(0, 500)` with `D = 500 > 400`. -/
theorem C3_witness :
    ((500 : ℝ) ≠ 0 ∧ 400 < Real.sqrt ((0 : ℝ) ^ 2 + 500 ^ 2)) ∧
    inverseKinematics 0 500 = .error PyError.mathDomainError :=
  ⟨⟨by norm_num, by rw [sqrt_0_500]; norm_num⟩,
    C3_amended_thm 0 500 (by norm_num) (by rw [sqrt_0_500]; norm_num)⟩

/-- C4 (counterexample): for `x = 0, y = 0` the solver does not fail with
a value-returned `SingularityError`: it raises `ZeroDivisionError` from
the ratio `atan(0 / 0)`. -/
theorem C4_counterexample :
    inverseKinematics 0 0 = .error PyError.zeroDivisionError :=
  ik_y_zero 0

/-- C4 (amended): at the singular target `(0, 0)` the code raises
`ZeroDivisionError` — the very same failure it produces for any `y = 0`
input such as the regular boundary point `(200, 0)` — so there is no
dedicated singularity check or singularity-specific result. -/
theorem C4_amended_thm :
    inverseKinematics 0 0 = .error PyError.zeroDivisionError ∧
    inverseKinematics 0 0 = inverseKinematics 200 0 :=
  ⟨ik_y_zero 0, by rw [ik_y_zero, ik_y_zero]⟩

/-- C5 (counterexample): the interpolation contract fails both ways.
With `p1 = (0,0)`, `p2 = (1,0)`, `r = 2` the output is the single point
`[(0,0)]`, so the last element is not `p2`.  With `p1 = (0,0)`,
`p2 = (10,0)`, `r = 3` the output is 4 points spaced `10/3 > 3` apart
(the fractional count `dist/res` is truncated instead of rounded up), so
consecutive spacing exceeds the resolution. -/
theorem C5_counterexample :
    interpolatePoints (0, 0) (1, 0) 2 = .ok [(0, 0)] ∧
    interpolatePoints (0, 0) (10, 0) 3 =
      .ok [(0, 0), (10 / 3, 0), (20 / 3, 0), (10, 0)] ∧
    3 < dist2 (0, 0) (10 / 3, 0) :=
  ⟨interp_short, interp_coarse, by rw [dist2_ten_thirds]; norm_num⟩

/-- C5 (amended): for every `p1, p2` and `r > 0` the returned sequence
starts with `p1`; it ends with `p2` whenever `dist(p1,p2) ≥ r` (when
`0 < dist < r` the output degenerates to `[p1]`); and consecutive points
are evenly spaced at exactly `dist / ⌊dist / r⌋`, which exceeds `r`
whenever `dist / r` is not an integer. -/
theorem C5_amended_thm (p1 p2 : ℝ × ℝ) (r : ℝ) (hr : 0 < r) :
    ∃ pts, interpolatePoints p1 p2 r = .ok pts ∧
      pts.head? = some p1 ∧
      (r ≤ dist2 p1 p2 → pts.getLast? = some p2) ∧
      ∀ i : ℕ, ∀ a b : ℝ × ℝ, pts[i]? = some a → pts[i + 1]? = some b →
        dist2 a b = dist2 p1 p2 / (⌊dist2 p1 p2 / r⌋ : ℝ) := by
  have hd : (0 : ℝ) ≤ dist2 p1 p2 / r := div_nonneg (dist2_nonneg _ _) hr.le
  have hfl : (0 : ℤ) ≤ ⌊dist2 p1 p2 / r⌋ := Int.floor_nonneg.mpr hd
  refine ⟨_, interpolatePoints_eq_linspace p1 p2 r hr, linspace_head _ _ _, ?_, ?_⟩
  · intro hrd
    apply linspace_last
    have h1 : (1 : ℝ) ≤ dist2 p1 p2 / r := (one_le_div hr).mpr hrd
    have h2 : (1 : ℤ) ≤ ⌊dist2 p1 p2 / r⌋ := Int.le_floor.mpr (by push_cast; linarith)
    omega
  · intro i a b ha hb
    have hlen : i + 1 < ⌊dist2 p1 p2 / r⌋.toNat + 1 := by
      by_contra hcon
      rw [List.getElem?_eq_none (by rw [linspace_length]; omega)] at hb
      exact Option.noConfusion hb
    rw [linspace_getElem? p1 p2 _ i (by omega)] at ha
    rw [linspace_getElem? p1 p2 _ (i + 1) hlen] at hb
    have ha' := Option.some.inj ha
    have hb' := Option.some.inj hb
    rw [← ha', ← hb']
    have hcast : ((⌊dist2 p1 p2 / r⌋.toNat : ℕ) : ℝ) = ((⌊dist2 p1 p2 / r⌋ : ℤ) : ℝ) := by
      exact_mod_cast congrArg Int.cast (Int.toNat_of_nonneg hfl)
    rw [← hcast]
    exact linspace_spacing p1 p2 _ i

/-- C5 (witness): the amended theorem applied at `p1 = (0,0)`,
`p2 = (10,0)`, `r = 3`. -/
theorem C5_witness :
    (0 : ℝ) < 3 ∧
    ∃ pts, interpolatePoints (0, 0) (10, 0) 3 = .ok pts ∧
      pts.head? = some (0, 0) ∧
      ((3 : ℝ) ≤ dist2 (0, 0) (10, 0) → pts.getLast? = some (10, 0)) ∧
      ∀ i : ℕ, ∀ a b : ℝ × ℝ, pts[i]? = some a → pts[i + 1]? = some b →
        dist2 a b = dist2 (0, 0) (10, 0) / (⌊dist2 (0, 0) (10, 0) / 3⌋ : ℝ) :=
  ⟨by norm_num, C5_amended_thm (0, 0) (10, 0) 3 (by norm_num)⟩

/-- C6 (counterexample): a non-positive resolution is not reported as a
configuration error: with `r = -100` the interpolator silently returns an
(empty) sequence, coercing the negative fractional count to `0`. -/
theorem C6_counterexample :
    interpolatePoints (0, 0) (10, 0) (-100) = .ok [] :=
  interp_negative_res

/-- C6 (amended): the interpolator performs no resolution validation.
With `r = 0` the division `dist / 0` produces `inf`/`nan` and the
sample-count integer conversion raises `OverflowError` (or `ValueError`
for coincident endpoints); a negative `r` is accepted and can yield a
short or empty sequence with no error, as C6's counterexample shows.
No `ConfigurationError`-style value is ever produced. -/
theorem C6_amended_thm :
    ∀ p1 p2 : ℝ × ℝ, interpolatePoints p1 p2 0 =
      .error (if dist2 p1 p2 = 0 then PyError.valueError
              else PyError.overflowError) := by
  intro p1 p2
  unfold interpolatePoints
  rw [if_pos rfl]

/-- C7: whenever `convertWaypoints(p1, p2)` succeeds with a list of joint
angles, the interpolation `interpolatePoints(p1, p2, 0.5)` also succeeds,
the output has exactly the interpolated-point count, and the `i`-th output
is the solver's result for the `i`-th interpolated point (traversal order
preserved). -/
theorem C7_thm (p1 p2 : ℝ × ℝ) (ws : List (ℝ × ℝ))
    (h : convertWaypoints p1 p2 = .ok ws) :
    ∃ ps, interpolatePoints p1 p2 0.5 = .ok ps ∧ ws.length = ps.length ∧
      ∀ i : ℕ, ∀ p, ps[i]? = some p →
        ∃ w, ws[i]? = some w ∧ inverseKinematics p.1 p.2 = .ok w := by
  obtain ⟨ps, hip, hsw⟩ := convertWaypoints_ok p1 p2 ws h
  obtain ⟨hlen, hall⟩ := solveWaypoints_spec ps ws hsw
  exact ⟨ps, hip, hlen, hall⟩

/-- C7 (witness): the theorem applied to the concrete successful plan
`convertWaypoints((0,200), (0,200)) = [(240°, 120°)]`. -/
theorem C7_witness :
    convertWaypoints (0, 200) (0, 200) = .ok [(240, 120)] ∧
    ∃ ps, interpolatePoints (0, 200) (0, 200) 0.5 = .ok ps ∧
      ([((240 : ℝ), (120 : ℝ))] : List (ℝ × ℝ)).length = ps.length ∧
      ∀ i : ℕ, ∀ p, ps[i]? = some p →
        ∃ w, ([((240 : ℝ), (120 : ℝ))] : List (ℝ × ℝ))[i]? = some w ∧
          inverseKinematics p.1 p.2 = .ok w :=
  ⟨cw_eval, C7_thm (0, 200) (0, 200) [(240, 120)] cw_eval⟩

/-- C8: for every point `p` and every strictly positive resolution `r`,
`interpolatePoints(p, p, r)` returns exactly the single-element sequence
`[p]`: the zero-distance case yields sample count
`trunc(0 / r + 1) = 1` with no division by zero and no empty output. -/
theorem C8_thm (p : ℝ × ℝ) (r : ℝ) (hr : 0 < r) :
    interpolatePoints p p r = .ok [p] :=
  interp_self p r hr

/-- C8 (witness): the theorem applied at `p = (1, 2)`, `r = 1`. -/
theorem C8_witness :
    (0 : ℝ) < 1 ∧
    interpolatePoints ((1 : ℝ), (2 : ℝ)) (1, 2) 1 = .ok [(1, 2)] :=
  ⟨by norm_num, C8_thm (1, 2) 1 (by norm_num)⟩

/-- C9: for every input with `x ≠ 0`, `y ≠ 0` and `0 < √(x²+y²) ≤ 400`,
the solver returns identical joint angles for a target and its mirror
image across the y-axis: the `x > 0` branch computes
`π + atan(x/y) ± acos(D/400)` while the `x ≤ 0` branch computes
`π − atan(x/y) ± acos(D/400)`, and `atan((−x)/y) = −atan(x/y)` makes the
two branches agree on mirrored inputs. -/
theorem C9_thm (x y : ℝ) (_hx : x ≠ 0) (hy : y ≠ 0)
    (_hpos : 0 < Real.sqrt (x ^ 2 + y ^ 2))
    (hle : Real.sqrt (x ^ 2 + y ^ 2) ≤ 400) :
    inverseKinematics (-x) y = inverseKinematics x y :=
  ik_mirror x y hy hle

/-- C9 (witness): the theorem applied at `(x, y) = (200, 200)`, where
`√(x²+y²) = √80000 ≈ 282.8` lies in `(0, 400]`. -/
theorem C9_witness :
    ((200 : ℝ) ≠ 0 ∧ (200 : ℝ) ≠ 0 ∧
      0 < Real.sqrt ((200 : ℝ) ^ 2 + 200 ^ 2) ∧
      Real.sqrt ((200 : ℝ) ^ 2 + 200 ^ 2) ≤ 400) ∧
    inverseKinematics (-200) 200 = inverseKinematics 200 200 :=
  ⟨⟨by norm_num, by norm_num, sqrt_200_200_pos, sqrt_200_200_le⟩,
    C9_thm 200 200 (by norm_num) (by norm_num) sqrt_200_200_pos sqrt_200_200_le⟩

/-- C10: whenever the solver returns a pair of angles `(a1, a2)`, the
first is greater than or equal to the second and their difference is
exactly `2·acos(D/400)` converted to degrees, where `D = √(x²+y²)`:
both solver branches return `base + acos(D/400)` and
`base − acos(D/400)` in degrees, and `acos` is non-negative. -/
theorem C10_thm (x y a1 a2 : ℝ)
    (h : inverseKinematics x y = .ok (a1, a2)) :
    a2 ≤ a1 ∧
      a1 - a2 = rad2deg (2 * arccos (Real.sqrt (x ^ 2 + y ^ 2) / 400)) :=
  ik_diff x y a1 a2 h

/-- C10 (witness): the theorem applied to the concrete return
`inverseKinematics(0, 200) = (240°, 120°)`, whose difference is
`120° = 2·acos(1/2)` in degrees. -/
theorem C10_witness :
    inverseKinematics 0 200 = .ok (240, 120) ∧
    ((120 : ℝ) ≤ 240 ∧
      (240 : ℝ) - 120 =
        rad2deg (2 * arccos (Real.sqrt ((0 : ℝ) ^ 2 + 200 ^ 2) / 400))) :=
  ⟨ik_0_200, C10_thm 0 200 240 120 ik_0_200⟩
